import Mathlib

/-!
Shallow embedding of the ksense-take-home repository (src/src/app/page.tsx:
the scoring pipeline of the `Home` page, and the appended `lib/demomed`
module with `fetchWithRetry` / `fetchAllPatients`), together with theorems
settling the specification claims.

Modelling conventions:
* JavaScript numbers are modelled by `ℚ`; machine floating point plays no
  role in any claim (all thresholds and test values are exact decimals).
* A JavaScript string that is only ever consumed through `parseNumber`
  (trim, `Number(...)`, finiteness check) is represented by its
  `parseNumber` result: `some q` for a string denoting the finite number
  `q`, `none` for an empty / non-numeric string.  `String(q)` round-trips
  (`Number(String(x)) = x` for finite numbers), so re-parsing a stringified
  number is the identity on this representation.
* Loosely typed (`unknown`) record fields are modelled by small inductive
  types that record exactly the distinctions the source code observes
  (`typeof` checks, truthiness of split halves, finiteness).
-/

/-- Threshold constant `HIGH_FEVER_THRESHOLD = 101` from page.tsx line 20. -/
def HIGH_FEVER_THRESHOLD : ℚ := 101

/-- Embeds `getBloodPressureScore` (page.tsx lines 30-44).  The two string
arguments are represented by their `parseNumber` results (see module
docstring); the source returns 0 when either parse is `null`, otherwise
walks the four threshold branches top-down. -/
def getBloodPressureScore (systolicValue diastolicValue : Option ℚ) : ℕ :=
  match systolicValue, diastolicValue with
  | some systolic, some diastolic =>
    if 140 ≤ systolic ∨ 90 ≤ diastolic then 4
    else if (130 ≤ systolic ∧ systolic ≤ 139) ∨ (80 ≤ diastolic ∧ diastolic ≤ 89) then 3
    else if 120 ≤ systolic ∧ systolic ≤ 129 ∧ diastolic < 80 then 2
    else if systolic < 120 ∧ diastolic < 80 then 1
    else 0
  | _, _ => 0

/-- Embeds `getTemperatureScore` (page.tsx lines 46-54); the string argument
is represented by its `parseNumber` result. -/
def getTemperatureScore (temperatureValue : Option ℚ) : ℕ :=
  match temperatureValue with
  | none => 0
  | some temperature =>
    if HIGH_FEVER_THRESHOLD ≤ temperature then 2
    else if 99.6 ≤ temperature ∧ temperature ≤ 100.9 then 1
    else if temperature ≤ 99.5 then 0
    else 0

/-- Embeds `getAgeScore` (page.tsx lines 56-64); the string argument is
represented by its `parseNumber` result.  The source merges `age === null`
and `age < 0` into one guard returning 0. -/
def getAgeScore (ageValue : Option ℚ) : ℕ :=
  match ageValue with
  | none => 0
  | some age =>
    if age < 0 then 0
    else if 65 < age then 2
    else if 40 ≤ age then 1
    else if age < 40 then 1
    else 0

/-- Integer-input specialisation of the blood-pressure rule, used to state
and prove the integer-restricted monotonicity property. -/
def bpScoreInt (systolic diastolic : ℤ) : ℕ :=
  if 140 ≤ systolic ∨ 90 ≤ diastolic then 4
  else if (130 ≤ systolic ∧ systolic ≤ 139) ∨ (80 ≤ diastolic ∧ diastolic ≤ 89) then 3
  else if 120 ≤ systolic ∧ systolic ≤ 129 ∧ diastolic < 80 then 2
  else if systolic < 120 ∧ diastolic < 80 then 1
  else 0

/-- Model of one half of a split blood-pressure string: the source checks
truthiness (`!half`, i.e. the half is the empty string) and then parses the
half with `parseNumber`. -/
inductive BPHalf where
  | emptyHalf
  | half (parsed : Option ℚ)
deriving DecidableEq

/-- Model of a raw `blood_pressure` field (an `unknown` value): the source
distinguishes non-strings, trimmed strings without a `/`, and strings with
a `/` (from which the first two split halves are consumed). -/
inductive RawBP where
  | nonString
  | noSlash
  | slashed (firstHalf secondHalf : BPHalf)
deriving DecidableEq

/-- Model of a raw `temperature` / `age` field (an `unknown` value): finite
number, non-finite number, string (represented by its `parseNumber`
result), or anything else. -/
inductive RawNum where
  | num (value : ℚ)
  | nanNum
  | str (parsed : Option ℚ)
  | other
deriving DecidableEq

/-- Truthiness of a split half (the empty string is falsy). -/
def BPHalf.truthy : BPHalf → Bool
  | .emptyHalf => false
  | .half _ => true

/-- The `parseNumber` result of a split half (the empty half trims to the
empty string and parses to `null`). -/
def BPHalf.parseNum : BPHalf → Option ℚ
  | .emptyHalf => none
  | .half parsed => parsed

/-- Result record of `parseBloodPressureReading`: the source returns the
stringified systolic/diastolic (or `null`) plus a validity flag; the
stringified numbers are represented by their numeric values. -/
structure BPReading where
  systolic : Option ℚ
  diastolic : Option ℚ
  valid : Bool
deriving DecidableEq

/-- Embeds `parseBloodPressureReading` (page.tsx lines 82-102). -/
def parseBloodPressureReading : RawBP → BPReading
  | .nonString => ⟨none, none, false⟩
  | .noSlash => ⟨none, none, false⟩
  | .slashed firstHalf secondHalf =>
    if !firstHalf.truthy || !secondHalf.truthy then ⟨none, none, false⟩
    else
      match firstHalf.parseNum, secondHalf.parseNum with
      | some systolic, some diastolic => ⟨some systolic, some diastolic, true⟩
      | _, _ => ⟨none, none, false⟩

/-- Embeds `parseTemperatureValue` (page.tsx lines 104-108). -/
def parseTemperatureValue : RawNum → Option ℚ
  | .num value => some value
  | .nanNum => none
  | .str parsed => parsed
  | .other => none

/-- Embeds `parseAgeValue` (page.tsx lines 110-118): finite non-negative
numbers pass through, numeric strings must parse non-negative. -/
def parseAgeValue : RawNum → Option ℚ
  | .num value => if 0 ≤ value then some value else none
  | .nanNum => none
  | .str parsed =>
    match parsed with
    | none => none
    | some value => if value < 0 then none else some value
  | .other => none

/-- Model of a raw patient record (`Patient` type, page.tsx lines 5-11).
`patient_id` / `id` are `some s` exactly when the field holds the string
`s` (possibly empty), `none` when it holds any non-string value. -/
structure Patient where
  patient_id : Option String
  id : Option String
  blood_pressure : RawBP
  temperature : RawNum
  age : RawNum
deriving DecidableEq

/-- The id-resolution step of `normalizePatient` (page.tsx lines 121-127):
first string-typed candidate of `patient_id`, `id`; an empty (falsy) result
is rejected. -/
def resolveId (patient : Patient) : Option String :=
  let chosen :=
    match patient.patient_id with
    | some s => some s
    | none => patient.id
  match chosen with
  | some s => if s = "" then none else some s
  | none => none

/-- The normalized patient produced by `normalizePatient`
(page.tsx lines 141-149). -/
structure Normalized where
  id : String
  bpScore : ℕ
  tempScore : ℕ
  ageScore : ℕ
  total : ℕ
  temperature : Option ℚ
  hasInvalid : Bool
deriving DecidableEq

/-- Embeds `normalizePatient` (page.tsx lines 120-150).  The id selection
is factored verbatim into `resolveId`.  The score calls pass the parsed
values directly: the source stringifies (`String(...)`) and re-parses,
which is the identity in this representation, and passes the empty string
(parsing to `null`) for missing values. -/
def normalizePatient (patient : Patient) : Option Normalized :=
  match resolveId patient with
  | none => none
  | some id =>
    let bp := parseBloodPressureReading patient.blood_pressure
    let temperature := parseTemperatureValue patient.temperature
    let age := parseAgeValue patient.age
    let bpScore := if bp.valid then getBloodPressureScore bp.systolic bp.diastolic else 0
    let tempScore := getTemperatureScore temperature
    let ageScore := getAgeScore age
    let hasInvalid := !bp.valid || decide (temperature = none) || decide (age = none)
    some ⟨id, bpScore, tempScore, ageScore, bpScore + tempScore + ageScore,
      temperature, hasInvalid⟩

/-- The fever test applied per record in `fetchPatients`
(page.tsx line 180): `temperature !== null && temperature >= 99.6`. -/
def feverFlag : Option ℚ → Bool
  | some temperature => decide (99.6 ≤ temperature)
  | none => false

/-- Mutable state of the classification loop inside `fetchPatients`
(page.tsx lines 166-186): the three accumulating alert lists and the
`seen` id set (a JS `Set`; only membership and size are observed, so it is
modelled as a duplicate-free list with insertion at the head). -/
structure AlertState where
  highRisk : List String
  fever : List String
  dataQuality : List String
  seen : List String
deriving DecidableEq

/-- Initial classification state. -/
def initState : AlertState := ⟨[], [], [], []⟩

/-- One iteration of the `records.forEach` body in `fetchPatients`
(page.tsx lines 171-186): skip unusable records, skip already-seen ids,
otherwise mark seen and push onto each alert list whose test passes. -/
def processRecord (st : AlertState) (entry : Patient) : AlertState :=
  match normalizePatient entry with
  | none => st
  | some normalized =>
    if normalized.id ∈ st.seen then st
    else
      ⟨if 4 ≤ normalized.total then st.highRisk ++ [normalized.id] else st.highRisk,
       if feverFlag normalized.temperature then st.fever ++ [normalized.id] else st.fever,
       if normalized.hasInvalid then st.dataQuality ++ [normalized.id] else st.dataQuality,
       normalized.id :: st.seen⟩

/-- Result shape of the classification (the `setAlerts` payload,
page.tsx lines 188-193): alert lists plus `totalPatients = seen.size`. -/
structure AlertLists where
  highRisk : List String
  fever : List String
  dataQuality : List String
  totalPatients : ℕ
deriving DecidableEq

/-- Embeds the classification stage of `fetchPatients`
(page.tsx lines 164-193) applied to the fetched record array. -/
def fetchPatientsClassify (records : List Patient) : AlertLists :=
  let st := records.foldl processRecord initState
  ⟨st.highRisk, st.fever, st.dataQuality, st.seen.length⟩

/-- The normalized records that actually contribute: normalization
succeeds and the id has not been seen before (first occurrence wins).
Used to characterise the classification loop. -/
def normFirst : List Patient → List String → List Normalized
  | [], _ => []
  | record :: rest, seen =>
    match normalizePatient record with
    | none => normFirst rest seen
    | some normalized =>
      if normalized.id ∈ seen then normFirst rest seen
      else normalized :: normFirst rest (normalized.id :: seen)

/-- First occurrences of a list of ids relative to an already-seen set. -/
def firstIds : List String → List String → List String
  | [], _ => []
  | x :: xs, seen =>
    if x ∈ seen then firstIds xs seen
    else x :: firstIds xs (x :: seen)

/-- Records kept by id-deduplication: the record must resolve to an id not
resolved by any earlier kept record (first occurrence wins; id-less records
are dropped). -/
def dedupById : List Patient → List String → List Patient
  | [], _ => []
  | record :: rest, seen =>
    match resolveId record with
    | none => dedupById rest seen
    | some x =>
      if x ∈ seen then dedupById rest seen
      else record :: dedupById rest (x :: seen)

/-- Outcome of one `fetch` call inside `fetchWithRetry`: a response with
`response.ok` carrying a parsed body, a non-ok response with its HTTP
status code and body text, or a thrown network/transport error. -/
inductive Attempt (α : Type) where
  | ok (response : α)
  | httpFail (code : ℕ) (body : String)
  | netErr
deriving DecidableEq

/-- The errors `fetchWithRetry` can propagate: the terminal
`Request failed with status ...` error (carrying status and body), a
rethrown transport error, and the unreachable
`Exceeded maximum retry attempts` fallthrough. -/
inductive FetchError where
  | requestFailed (code : ℕ) (body : String)
  | transport
  | exceededMaxAttempts
deriving DecidableEq

/-- `MAX_ATTEMPTS = 5` (demomed module). -/
def MAX_ATTEMPTS : ℕ := 5

/-- `BASE_DELAY_MS = 300` (demomed module). -/
def BASE_DELAY_MS : ℕ := 300

/-- Embeds `isRetriableStatus` (demomed module): 429, 500 or 503. -/
def isRetriableStatus (status : ℕ) : Bool :=
  status == 429 || status == 500 || status == 503

/-- The backoff delay computed before the retry following attempt
`attempt`: `Math.min(BASE_DELAY_MS * 2 ** (attempt - 1), 4000)`. -/
def backoffDelay (attempt : ℕ) : ℕ :=
  min (BASE_DELAY_MS * 2 ^ (attempt - 1)) 4000

/-- Embeds the `while` loop of `fetchWithRetry` (page.tsx lines 490-533).
The server is a function from the 1-based attempt number to that attempt's
outcome.  `fuel` bounds remaining loop iterations (`MAX_ATTEMPTS` at entry,
matching the loop guard `attempt < MAX_ATTEMPTS`); `attempt` and
`delayAcc` carry the attempt counter and the accumulated waited delay.
Returns the result together with the attempts consumed and total delay.
Note the source throws the terminal status error inside the `try`, so its
own `catch` intercepts it: with attempts remaining every non-ok outcome
waits and retries, whatever its status. -/
def fetchGo {α : Type} (server : ℕ → Attempt α) :
    ℕ → ℕ → ℕ → Except FetchError α × ℕ × ℕ
  | 0, attempt, delayAcc => (.error .exceededMaxAttempts, attempt, delayAcc)
  | fuel + 1, attempt, delayAcc =>
    if attempt < MAX_ATTEMPTS then
      match server (attempt + 1) with
      | .ok response => (.ok response, attempt + 1, delayAcc)
      | .httpFail code body =>
        if isRetriableStatus code && decide (attempt + 1 < MAX_ATTEMPTS) then
          fetchGo server fuel (attempt + 1) (delayAcc + backoffDelay (attempt + 1))
        else if MAX_ATTEMPTS ≤ attempt + 1 then
          (.error (.requestFailed code body), attempt + 1, delayAcc)
        else
          fetchGo server fuel (attempt + 1) (delayAcc + backoffDelay (attempt + 1))
      | .netErr =>
        if MAX_ATTEMPTS ≤ attempt + 1 then (.error .transport, attempt + 1, delayAcc)
        else fetchGo server fuel (attempt + 1) (delayAcc + backoffDelay (attempt + 1))
    else (.error .exceededMaxAttempts, attempt, delayAcc)

/-- Embeds `fetchWithRetry` (page.tsx lines 490-533): run the retry loop
from attempt 0 with no accumulated delay. -/
def fetchWithRetry {α : Type} (server : ℕ → Attempt α) :
    Except FetchError α × ℕ × ℕ :=
  fetchGo server MAX_ATTEMPTS 0 0

/-- Model of the optional `pagination` object of a `PatientsResponse`
(page.tsx lines 535-542). -/
structure Pagination where
  page : Option ℤ
  totalPages : Option ℤ
  hasNext : Option Bool
deriving DecidableEq

/-- Model of a parsed page payload (`PatientsResponse`): `data` is `some`
exactly when the field is an array. -/
structure PatientsResponse where
  data : Option (List Patient)
  pagination : Option Pagination
deriving DecidableEq

/-- Mutable state of the paging loop in `fetchAllPatients`
(page.tsx lines 560-565). -/
structure FetchState where
  patients : List Patient
  page : ℕ
  pagesFetched : ℕ
  hasNext : Bool
  totalPages : Option ℤ
deriving DecidableEq

/-- One iteration body of the paging loop (page.tsx lines 567-589) applied
to an already-parsed payload: append the page records, fold the reported
`totalPages` into the running value (`?? totalPages`), and compute
`inferredHasNext` from the explicit flag, the running `totalPages` (with
the response-reported page number, defaulting to the loop counter), or the
non-empty/ceiling heuristic. -/
def applyPage (payload : PatientsResponse) (maxPages : ℕ) (st : FetchState) : FetchState :=
  let pageData := payload.data.getD []
  let patients := st.patients ++ pageData
  let totalPages :=
    match payload.pagination.bind Pagination.totalPages with
    | some reported => some reported
    | none => st.totalPages
  let pageNumber := (payload.pagination.bind Pagination.page).getD (st.page : ℤ)
  let hasNextFlag := payload.pagination.bind Pagination.hasNext
  let inferredHasNext :=
    match hasNextFlag with
    | some flag => flag
    | none =>
      match totalPages with
      | some tp => decide (pageNumber < tp)
      | none => decide (0 < pageData.length) && decide (st.page < maxPages)
  ⟨patients, st.page + 1, st.pagesFetched + 1, inferredHasNext, totalPages⟩

/-- Embeds the `while (hasNext && page <= maxPages)` loop of
`fetchAllPatients`: each page is fetched through `fetchWithRetry` (the
server maps a page number to its attempt sequence) and a failed page
propagates its error.  `fuel` bounds iterations; since `page` increments
every iteration and the guard requires `page ≤ maxPages`, `maxPages` fuel
is exact. -/
def fetchPagesGo (server : ℕ → ℕ → Attempt PatientsResponse) (maxPages : ℕ) :
    ℕ → FetchState → Except FetchError FetchState
  | 0, st => .ok st
  | fuel + 1, st =>
    if st.hasNext && decide (st.page ≤ maxPages) then
      match fetchWithRetry (server st.page) with
      | (.error e, _, _) => .error e
      | (.ok payload, _, _) => fetchPagesGo server maxPages fuel (applyPage payload maxPages st)
    else .ok st

/-- Result record of `fetchAllPatients` (page.tsx lines 591-596). -/
structure FetchResult where
  patients : List Patient
  pagesFetched : ℕ
  totalPages : ℤ
  limit : ℕ
deriving DecidableEq

/-- Initial paging state (page 1, nothing fetched, `hasNext = true`,
no reported `totalPages`). -/
def initFetchState : FetchState := ⟨[], 1, 0, true, none⟩

/-- Embeds `fetchAllPatients` (page.tsx lines 555-597): run the paging
loop and package the result, defaulting `totalPages` to `pagesFetched`
when the remote never reported it. -/
def fetchAllPatients (server : ℕ → ℕ → Attempt PatientsResponse)
    (limit maxPages : ℕ) : Except FetchError FetchResult :=
  match fetchPagesGo server maxPages maxPages initFetchState with
  | .error e => .error e
  | .ok st => .ok ⟨st.patients, st.pagesFetched, st.totalPages.getD (st.pagesFetched : ℤ), limit⟩

/-- The per-page `hasNext` computation exactly as claim C2 literally words
it (spec-side definition, for comparison with the code): (1) the explicit
`hasNext` boolean from THIS response's pagination metadata if present;
else (2) the CURRENT page number compared against THIS response's reported
`totalPages` if present; else (3) continue only if the page returned a
non-empty record set and the page ceiling has not been reached. -/
def claimedApplyPage (payload : PatientsResponse) (maxPages : ℕ) (st : FetchState) : FetchState :=
  let pageData := payload.data.getD []
  let patients := st.patients ++ pageData
  let totalPages :=
    match payload.pagination.bind Pagination.totalPages with
    | some reported => some reported
    | none => st.totalPages
  let inferredHasNext :=
    match payload.pagination.bind Pagination.hasNext with
    | some flag => flag
    | none =>
      match payload.pagination.bind Pagination.totalPages with
      | some tp => decide ((st.page : ℤ) < tp)
      | none => decide (0 < pageData.length) && decide (st.page < maxPages)
  ⟨patients, st.page + 1, st.pagesFetched + 1, inferredHasNext, totalPages⟩

/-- The paging loop with claim C2's literal per-page step (spec-side),
over a server whose pages all succeed. -/
def claimedFetchPagesGo (server : ℕ → PatientsResponse) (maxPages : ℕ) :
    ℕ → FetchState → FetchState
  | 0, st => st
  | fuel + 1, st =>
    if st.hasNext && decide (st.page ≤ maxPages) then
      claimedFetchPagesGo server maxPages fuel (claimedApplyPage (server st.page) maxPages st)
    else st

/-- `fetchAllPatients` as claim C2 literally describes it (spec-side),
over a server whose pages all succeed. -/
def claimedFetchAllPatients (server : ℕ → PatientsResponse) (limit maxPages : ℕ) : FetchResult :=
  let st := claimedFetchPagesGo server maxPages maxPages initFetchState
  ⟨st.patients, st.pagesFetched, st.totalPages.getD (st.pagesFetched : ℤ), limit⟩

/-- The per-page `hasNext` computation as the AMENDED claim C2 describes
it (spec-side definition): (1) the explicit `hasNext` flag of this
response if present; else (2) if any response so far (this one included)
has reported `totalPages`, compare the response-reported page number
(defaulting to the current loop counter) against the most recently
reported `totalPages`; else (3) continue only if this page was non-empty
and the loop counter is below the page ceiling. -/
def describedHasNext (respHasNext : Option Bool) (respTotalPages respPage : Option ℤ)
    (knownTotalPages : Option ℤ) (pageDataLen : ℕ) (page maxPages : ℕ) : Bool :=
  match respHasNext with
  | some flag => flag
  | none =>
    match (match respTotalPages with | some tp => some tp | none => knownTotalPages) with
    | some tp => decide ((respPage.getD (page : ℤ)) < tp)
    | none => decide (0 < pageDataLen) && decide (page < maxPages)

/-- A raw record with no usable fields at all (no id, nothing parseable);
used as an inert page payload element in pagination claims. -/
def blankRecord : Patient := ⟨none, none, .nonString, .other, .other⟩

/-- Sticky-`totalPages` server: page 1 reports `totalPages = 5` (and one
record), later pages report no pagination metadata and no records. -/
def stickyServer : ℕ → ℕ → Attempt PatientsResponse := fun page _ =>
  .ok (if page = 1 then ⟨some [blankRecord], some ⟨none, some 5, none⟩⟩ else ⟨some [], none⟩)

/-- The same sticky-`totalPages` server as a pure page function. -/
def stickyPages : ℕ → PatientsResponse := fun page =>
  if page = 1 then ⟨some [blankRecord], some ⟨none, some 5, none⟩⟩ else ⟨some [], none⟩

/-- Page-number-override server: page 1 reports `page = 7`,
`totalPages = 5` (and one record), later pages report nothing. -/
def overrideServer : ℕ → ℕ → Attempt PatientsResponse := fun page _ =>
  .ok (if page = 1 then ⟨some [blankRecord], some ⟨some 7, some 5, none⟩⟩ else ⟨some [], none⟩)

/-- The same page-number-override server as a pure page function. -/
def overridePages : ℕ → PatientsResponse := fun page =>
  if page = 1 then ⟨some [blankRecord], some ⟨some 7, some 5, none⟩⟩ else ⟨some [], none⟩

/-- A record with id `t1`, blood pressure 118/76, temperature 100.0 and
age 50: fever by raw value while the temperature score is only 1. -/
def feverPatient : Patient :=
  ⟨some "t1", none, .slashed (.half (some 118)) (.half (some 76)), .num 100.0, .num 50⟩

/-- A record with id `q1`, blood pressure `"bad/data"` (two non-empty,
non-numeric halves), valid temperature 98.6 and valid age 30. -/
def badBpPatient : Patient :=
  ⟨some "q1", none, .slashed (.half none) (.half none), .num 98.6, .num 30⟩

/-- A record with id `a`: blood pressure 150/95, temperature 101, age 70. -/
def dupA1 : Patient :=
  ⟨some "a", none, .slashed (.half (some 150)) (.half (some 95)), .num 101, .num 70⟩

/-- A second record with the same id `a` but no parseable fields. -/
def dupA2 : Patient := ⟨some "a", none, .nonString, .other, .other⟩

/-- A record with id `b` (under the `id` field), all fields healthy. -/
def recB : Patient :=
  ⟨none, some "b", .slashed (.half (some 118)) (.half (some 76)), .num 98.6, .num 30⟩

theorem fetchGo_zero {α : Type} (server : ℕ → Attempt α) (attempt delayAcc : ℕ) :
    fetchGo server 0 attempt delayAcc = (.error .exceededMaxAttempts, attempt, delayAcc) := rfl

theorem fetchGo_succ {α : Type} (server : ℕ → Attempt α) (fuel attempt delayAcc : ℕ) :
    fetchGo server (fuel + 1) attempt delayAcc =
      (if attempt < MAX_ATTEMPTS then
        match server (attempt + 1) with
        | .ok response => (.ok response, attempt + 1, delayAcc)
        | .httpFail code body =>
          if isRetriableStatus code && decide (attempt + 1 < MAX_ATTEMPTS) then
            fetchGo server fuel (attempt + 1) (delayAcc + backoffDelay (attempt + 1))
          else if MAX_ATTEMPTS ≤ attempt + 1 then
            (.error (.requestFailed code body), attempt + 1, delayAcc)
          else
            fetchGo server fuel (attempt + 1) (delayAcc + backoffDelay (attempt + 1))
        | .netErr =>
          if MAX_ATTEMPTS ≤ attempt + 1 then (.error .transport, attempt + 1, delayAcc)
          else fetchGo server fuel (attempt + 1) (delayAcc + backoffDelay (attempt + 1))
      else (.error .exceededMaxAttempts, attempt, delayAcc)) := rfl

/-- With attempts remaining, any non-ok outcome waits the backoff delay
for the current attempt and retries (the source catches its own terminal
error, so this holds for every failure kind). -/
lemma fetchGo_retry_step {α : Type} (server : ℕ → Attempt α) (fuel attempt delayAcc : ℕ)
    (hmax : attempt + 1 < MAX_ATTEMPTS)
    (hfailA : ∀ y, server (attempt + 1) ≠ .ok y) :
    fetchGo server (fuel + 1) attempt delayAcc
      = fetchGo server fuel (attempt + 1) (delayAcc + backoffDelay (attempt + 1)) := by
  rw [fetchGo_succ, if_pos (show attempt < MAX_ATTEMPTS by omega)]
  cases hserver : server (attempt + 1) with
  | ok y => exact absurd hserver (hfailA y)
  | httpFail code body =>
    by_cases hr : isRetriableStatus code
    · simp [hr, hmax]
    · have hle : ¬ MAX_ATTEMPTS ≤ attempt + 1 := by omega
      simp [hr, hle]
  | netErr => rw [if_neg (by omega)]

/-- A successful attempt returns immediately with the attempt counter and
accumulated delay. -/
lemma fetchGo_ok_step {α : Type} (server : ℕ → Attempt α) (fuel attempt delayAcc : ℕ)
    (x : α) (hmax : attempt < MAX_ATTEMPTS) (h : server (attempt + 1) = .ok x) :
    fetchGo server (fuel + 1) attempt delayAcc = (.ok x, attempt + 1, delayAcc) := by
  rw [fetchGo_succ, if_pos hmax, h]

/-- If the first attempt succeeds, `fetchWithRetry` returns it with no
delay. -/
lemma fetchWithRetry_first_ok {α : Type} (server : ℕ → Attempt α) (x : α)
    (h : server 1 = .ok x) :
    fetchWithRetry server = (.ok x, 1, 0) := by
  show fetchGo server (4 + 1) 0 0 = (.ok x, 1, 0)
  exact fetchGo_ok_step server 4 0 0 x (by decide) h

/-- A run whose attempts `1..k-1` all fail and whose attempt `k ≤ 5`
succeeds returns the success after `k` attempts, having waited exactly the
backoff delays of attempts `1..k-1`. -/
lemma fetchGo_ok_run {α : Type} (server : ℕ → Attempt α) (k : ℕ) (x : α)
    (hk5 : k ≤ MAX_ATTEMPTS) (hsk : server k = .ok x)
    (hfail : ∀ i, 1 ≤ i → i < k → ∀ y, server i ≠ .ok y) :
    ∀ fuel attempt delayAcc, attempt < k → k ≤ attempt + fuel →
      fetchGo server fuel attempt delayAcc
        = (.ok x, k, delayAcc + ∑ n ∈ Finset.Ico (attempt + 1) k, backoffDelay n) := by
  intro fuel
  induction fuel with
  | zero =>
    intro attempt delayAcc hlt hle
    omega
  | succ fuel ih =>
    intro attempt delayAcc hlt hle
    by_cases hk : attempt + 1 = k
    · rw [fetchGo_ok_step server fuel attempt delayAcc x (by omega) (by rw [hk]; exact hsk)]
      rw [hk, Finset.Ico_self, Finset.sum_empty, Nat.add_zero]
    · have hlt2 : attempt + 1 < k := by omega
      rw [fetchGo_retry_step server fuel attempt delayAcc (by omega)
        (hfail (attempt + 1) (by omega) hlt2)]
      rw [ih (attempt + 1) (delayAcc + backoffDelay (attempt + 1)) hlt2 (by omega)]
      rw [Finset.sum_eq_sum_Ico_succ_bot hlt2, Nat.add_assoc]

/-- Claim C1 (code bug, evaluated at the failing input): the spec says a
non-retriable status such as 404 raises a terminal error at once, but the
source throws that terminal error inside its own `try`, so the `catch`
intercepts it and retries.  Concretely: a server answering 404 then 200
SUCCEEDS on attempt 2 after a 300 ms wait (instead of failing terminally
on attempt 1), while five consecutive 500s do end in the terminal
`requestFailed` error after exactly 5 attempts (no 6th) and
300+600+1200+2400 ms of backoff. -/
theorem claim_C1_retries_nonretriable_status :
    fetchWithRetry
        (fun attempt => if attempt = 1 then Attempt.httpFail 404 "not found" else .ok (0 : ℕ))
      = (.ok 0, 2, 300)
  ∧ fetchWithRetry (fun _ => (Attempt.httpFail 500 "server error" : Attempt ℕ))
      = (.error (.requestFailed 500 "server error"), 5, 4500) := by
  exact ⟨rfl, rfl⟩

/-- Claim C4: the backoff delay inserted before attempt `n+1` is
`min(300 · 2^(n-1), 4000)`, and a run whose first `k-1 ≤ 4` attempts fail
and whose attempt `k` succeeds accumulates exactly the sum of those
delays.  In particular (witness) 503, 503, 200 succeeds with a total delay
of 300 + 600 = 900 ms. -/
theorem claim_C4_backoff :
    (∀ attempt : ℕ, backoffDelay attempt = min (BASE_DELAY_MS * 2 ^ (attempt - 1)) 4000)
  ∧ (∀ (α : Type) (server : ℕ → Attempt α) (k : ℕ) (x : α),
      1 ≤ k → k ≤ MAX_ATTEMPTS → server k = .ok x →
      (∀ i, 1 ≤ i → i < k → ∀ y, server i ≠ .ok y) →
      fetchWithRetry server = (.ok x, k, ∑ n ∈ Finset.Ico 1 k, backoffDelay n)) := by
  constructor
  · intro attempt
    rfl
  · intro α server k x hk1 hk5 hok hfail
    have h := fetchGo_ok_run server k x hk5 hok hfail MAX_ATTEMPTS 0 0 (by omega) (by omega)
    rw [fetchWithRetry, h, Nat.zero_add]

/-- Witness for C4: the 503/503/200 server from the claim. -/
theorem claim_C4_backoff_witness :
    fetchWithRetry (fun attempt => if attempt ≤ 2 then Attempt.httpFail 503 "busy" else .ok (0 : ℕ))
      = (.ok 0, 3, 300 + 600) := by
  have h := claim_C4_backoff.2 ℕ
    (fun attempt => if attempt ≤ 2 then Attempt.httpFail 503 "busy" else .ok (0 : ℕ))
    3 0 (by omega) (by decide) (by decide) ?_
  · rw [h]
    norm_num
    decide
  · intro i h1 h2 y heq
    have hle : i ≤ 2 := by omega
    simp [hle] at heq

/-- Claim C8: the age score has three bands — over 65 scores 2, any other
non-negative age scores 1, negative or unparsable input scores 0 — with
the four concrete evaluations named by the spec. -/
theorem claim_C8_age_bands :
    (∀ q : ℚ, 65 < q → getAgeScore (some q) = 2)
  ∧ (∀ q : ℚ, 0 ≤ q → q ≤ 65 → getAgeScore (some q) = 1)
  ∧ (∀ q : ℚ, q < 0 → getAgeScore (some q) = 0)
  ∧ getAgeScore none = 0
  ∧ getAgeScore (some 70) = 2 ∧ getAgeScore (some 50) = 1
  ∧ getAgeScore (some 10) = 1 ∧ getAgeScore (some (-5)) = 0 := by
  refine ⟨?_, ?_, ?_, rfl, by decide, by decide, by decide, by decide⟩
  · intro q h
    simp only [getAgeScore]
    rw [if_neg (by linarith), if_pos h]
  · intro q h0 h65
    simp only [getAgeScore]
    rw [if_neg (by linarith), if_neg (by linarith)]
    by_cases h40 : 40 ≤ q
    · rw [if_pos h40]
    · rw [if_neg h40, if_pos (by linarith)]
  · intro q h
    simp only [getAgeScore]
    rw [if_pos h]

/-- Witness for C8 at the band edges 66, 65, 0 and -1. -/
theorem claim_C8_age_bands_witness :
    getAgeScore (some 66) = 2 ∧ getAgeScore (some 65) = 1
  ∧ getAgeScore (some 0) = 1 ∧ getAgeScore (some (-1)) = 0 :=
  ⟨claim_C8_age_bands.1 66 (by norm_num),
   claim_C8_age_bands.2.1 65 (by norm_num) (by norm_num),
   claim_C8_age_bands.2.1 0 (by norm_num) (by norm_num),
   claim_C8_age_bands.2.2.1 (-1) (by norm_num)⟩

/-- Claim C10: the temperature bands leave a gap — every parsed value in
`[99.6, 100.9]` scores 1 and every value `≥ 101` scores 2, but any value
strictly between 100.9 and 101 falls through every branch and scores 0;
100.95 is such a value. -/
theorem claim_C10_temperature_gap :
    (∀ q : ℚ, 100.9 < q → q < 101 → getTemperatureScore (some q) = 0)
  ∧ (∀ q : ℚ, 99.6 ≤ q → q ≤ 100.9 → getTemperatureScore (some q) = 1)
  ∧ (∀ q : ℚ, 101 ≤ q → getTemperatureScore (some q) = 2)
  ∧ getTemperatureScore (some 100.95) = 0 := by
  refine ⟨?_, ?_, ?_, by norm_num [getTemperatureScore, HIGH_FEVER_THRESHOLD]⟩
  · intro q hlo hhi
    simp only [getTemperatureScore, HIGH_FEVER_THRESHOLD]
    rw [if_neg (by linarith), if_neg ?_, if_neg (by linarith)]
    rintro ⟨-, h2⟩
    linarith
  · intro q hlo hhi
    simp only [getTemperatureScore, HIGH_FEVER_THRESHOLD]
    rw [if_neg (by linarith), if_pos ⟨hlo, hhi⟩]
  · intro q h
    simp only [getTemperatureScore, HIGH_FEVER_THRESHOLD]
    rw [if_pos h]

/-- Witness for C10 at 100.95, 100.0 and 101. -/
theorem claim_C10_temperature_gap_witness :
    getTemperatureScore (some 100.95) = 0 ∧ getTemperatureScore (some 100.0) = 1
  ∧ getTemperatureScore (some 101) = 2 :=
  ⟨claim_C10_temperature_gap.1 100.95 (by norm_num) (by norm_num),
   claim_C10_temperature_gap.2.1 100.0 (by norm_num) (by norm_num),
   claim_C10_temperature_gap.2.2.1 101 le_rfl⟩

/-- On integer readings the rational and integer blood-pressure rules
agree. -/
lemma getBloodPressureScore_intCast (s d : ℤ) :
    getBloodPressureScore (some (s : ℚ)) (some (d : ℚ)) = bpScoreInt s d := by
  have h1 : ((140 : ℚ) ≤ (s : ℚ)) ↔ ((140 : ℤ) ≤ s) := by exact_mod_cast Iff.rfl
  have h2 : ((90 : ℚ) ≤ (d : ℚ)) ↔ ((90 : ℤ) ≤ d) := by exact_mod_cast Iff.rfl
  have h3 : ((130 : ℚ) ≤ (s : ℚ)) ↔ ((130 : ℤ) ≤ s) := by exact_mod_cast Iff.rfl
  have h4 : ((s : ℚ) ≤ (139 : ℚ)) ↔ (s ≤ (139 : ℤ)) := by exact_mod_cast Iff.rfl
  have h5 : ((80 : ℚ) ≤ (d : ℚ)) ↔ ((80 : ℤ) ≤ d) := by exact_mod_cast Iff.rfl
  have h6 : ((d : ℚ) ≤ (89 : ℚ)) ↔ (d ≤ (89 : ℤ)) := by exact_mod_cast Iff.rfl
  have h7 : ((120 : ℚ) ≤ (s : ℚ)) ↔ ((120 : ℤ) ≤ s) := by exact_mod_cast Iff.rfl
  have h8 : ((s : ℚ) ≤ (129 : ℚ)) ↔ (s ≤ (129 : ℤ)) := by exact_mod_cast Iff.rfl
  have h9 : ((d : ℚ) < (80 : ℚ)) ↔ (d < (80 : ℤ)) := by exact_mod_cast Iff.rfl
  have h10 : ((s : ℚ) < (120 : ℚ)) ↔ (s < (120 : ℤ)) := by exact_mod_cast Iff.rfl
  simp only [getBloodPressureScore, bpScoreInt, h1, h2, h3, h4, h5, h6, h7, h8, h9, h10]

/-- The integer blood-pressure rule is monotone in the systolic reading. -/
lemma bpScoreInt_mono_systolic (s₁ s₂ d : ℤ) (h : s₁ ≤ s₂) :
    bpScoreInt s₁ d ≤ bpScoreInt s₂ d := by
  unfold bpScoreInt
  split_ifs <;> omega

/-- The integer blood-pressure rule is monotone in the diastolic reading. -/
lemma bpScoreInt_mono_diastolic (s d₁ d₂ : ℤ) (h : d₁ ≤ d₂) :
    bpScoreInt s d₁ ≤ bpScoreInt s d₂ := by
  unfold bpScoreInt
  split_ifs <;> omega

/-- Counterexample to claim C3: the blood-pressure rule is NOT monotone
over all (rational) reading pairs — raising systolic from 125 to 129.5
with diastolic fixed at 70 drops the score from 2 to 0, because 129.5
falls in the gap between the `[120,129]` and `[130,139]` bands. -/
theorem claim_C3_counterexample :
    getBloodPressureScore (some 125) (some 70) = 2
  ∧ getBloodPressureScore (some 129.5) (some 70) = 0
  ∧ ¬ (∀ s₁ s₂ d : ℚ, s₁ ≤ s₂ →
        getBloodPressureScore (some s₁) (some d) ≤ getBloodPressureScore (some s₂) (some d)) := by
  have e1 : getBloodPressureScore (some 125) (some 70) = 2 := by
    norm_num [getBloodPressureScore]
  have e2 : getBloodPressureScore (some 129.5) (some 70) = 0 := by
    norm_num [getBloodPressureScore]
  refine ⟨e1, e2, fun h => ?_⟩
  have h2 := h 125 129.5 70 (by norm_num)
  rw [e1, e2] at h2
  omega

/-- Claim C3 as amended: the score always lies in {0,1,2,3,4}, and on
integer-valued readings (where the band gaps cannot be hit) it is
monotonically non-decreasing in each reading. -/
theorem claim_C3_range_and_integer_mono :
    (∀ s d : Option ℚ, getBloodPressureScore s d ∈ [0, 1, 2, 3, 4])
  ∧ (∀ s₁ s₂ d : ℤ, s₁ ≤ s₂ →
      getBloodPressureScore (some (s₁ : ℚ)) (some (d : ℚ))
        ≤ getBloodPressureScore (some (s₂ : ℚ)) (some (d : ℚ)))
  ∧ (∀ s d₁ d₂ : ℤ, d₁ ≤ d₂ →
      getBloodPressureScore (some (s : ℚ)) (some (d₁ : ℚ))
        ≤ getBloodPressureScore (some (s : ℚ)) (some (d₂ : ℚ))) := by
  refine ⟨?_, ?_, ?_⟩
  · intro s d
    rcases s with _ | s
    · simp [getBloodPressureScore]
    rcases d with _ | d
    · simp [getBloodPressureScore]
    simp only [getBloodPressureScore]
    split_ifs <;> simp
  · intro s₁ s₂ d h
    rw [getBloodPressureScore_intCast, getBloodPressureScore_intCast]
    exact bpScoreInt_mono_systolic s₁ s₂ d h
  · intro s d₁ d₂ h
    rw [getBloodPressureScore_intCast, getBloodPressureScore_intCast]
    exact bpScoreInt_mono_diastolic s d₁ d₂ h

/-- Witness for the amended C3 at concrete readings. -/
theorem claim_C3_range_and_integer_mono_witness :
    getBloodPressureScore (some 118) (some 76) ∈ [0, 1, 2, 3, 4]
  ∧ getBloodPressureScore (some ((120 : ℤ) : ℚ)) (some ((70 : ℤ) : ℚ))
      ≤ getBloodPressureScore (some ((130 : ℤ) : ℚ)) (some ((70 : ℤ) : ℚ))
  ∧ getBloodPressureScore (some ((110 : ℤ) : ℚ)) (some ((75 : ℤ) : ℚ))
      ≤ getBloodPressureScore (some ((110 : ℤ) : ℚ)) (some ((85 : ℤ) : ℚ)) :=
  ⟨claim_C3_range_and_integer_mono.1 (some 118) (some 76),
   claim_C3_range_and_integer_mono.2.1 120 130 70 (by norm_num),
   claim_C3_range_and_integer_mono.2.2 110 75 85 (by norm_num)⟩

/-- The classification fold, from any state, appends exactly the ids of
the first-occurrence normalized records passing each test, and pushes
their ids onto `seen`. -/
lemma foldl_processRecord (l : List Patient) : ∀ st : AlertState,
    l.foldl processRecord st =
      ⟨st.highRisk ++ ((normFirst l st.seen).filter (fun n => decide (4 ≤ n.total))).map Normalized.id,
       st.fever ++ ((normFirst l st.seen).filter (fun n => feverFlag n.temperature)).map Normalized.id,
       st.dataQuality ++ ((normFirst l st.seen).filter (fun n => n.hasInvalid)).map Normalized.id,
       ((normFirst l st.seen).map Normalized.id).reverse ++ st.seen⟩ := by
  induction l with
  | nil => intro st; simp [normFirst]
  | cons r rest ih =>
    intro st
    rw [List.foldl_cons]
    cases hn : normalizePatient r with
    | none =>
      rw [show processRecord st r = st from by simp [processRecord, hn]]
      rw [ih st]
      simp only [normFirst, hn]
    | some n =>
      by_cases hseen : n.id ∈ st.seen
      · rw [show processRecord st r = st from by simp [processRecord, hn, hseen]]
        rw [ih st]
        simp only [normFirst, hn, if_pos hseen]
      · have hstep : processRecord st r =
            ⟨if 4 ≤ n.total then st.highRisk ++ [n.id] else st.highRisk,
             if feverFlag n.temperature then st.fever ++ [n.id] else st.fever,
             if n.hasInvalid then st.dataQuality ++ [n.id] else st.dataQuality,
             n.id :: st.seen⟩ := by
          simp [processRecord, hn, hseen]
        rw [hstep, ih]
        simp only [normFirst, hn, if_neg hseen]
        by_cases hc1 : 4 ≤ n.total <;> by_cases hc2 : feverFlag n.temperature = true <;>
            by_cases hc3 : n.hasInvalid = true <;>
          simp [hc1, hc2, hc3, List.filter_cons]

/-- A normalized record kept by `normFirst` has an id outside the initial
seen set. -/
lemma normFirst_not_mem_seen :
    ∀ (l : List Patient) (seen : List String) (n : Normalized),
      n ∈ normFirst l seen → n.id ∉ seen := by
  intro l
  induction l with
  | nil => intro seen n h; simp [normFirst] at h
  | cons r rest ih =>
    intro seen n h
    cases hn : normalizePatient r with
    | none =>
      simp only [normFirst, hn] at h
      exact ih seen n h
    | some m =>
      simp only [normFirst, hn] at h
      by_cases hs : m.id ∈ seen
      · rw [if_pos hs] at h
        exact ih seen n h
      · rw [if_neg hs] at h
        rcases List.mem_cons.mp h with h1 | h1
        · rw [h1]
          exact hs
        · have h2 := ih (m.id :: seen) n h1
          intro hmem
          exact h2 (List.mem_cons_of_mem _ hmem)

/-- The ids kept by `normFirst` are pairwise distinct. -/
lemma normFirst_ids_nodup :
    ∀ (l : List Patient) (seen : List String),
      ((normFirst l seen).map Normalized.id).Nodup := by
  intro l
  induction l with
  | nil => intro seen; simp [normFirst]
  | cons r rest ih =>
    intro seen
    cases hn : normalizePatient r with
    | none => simp only [normFirst, hn]; exact ih seen
    | some m =>
      simp only [normFirst, hn]
      by_cases hs : m.id ∈ seen
      · rw [if_pos hs]
        exact ih seen
      · rw [if_neg hs]
        rw [List.map_cons, List.nodup_cons]
        refine ⟨?_, ih (m.id :: seen)⟩
        intro hmem
        rcases List.mem_map.mp hmem with ⟨n, hn2, hid⟩
        have h2 := normFirst_not_mem_seen rest (m.id :: seen) n hn2
        rw [hid] at h2
        exact h2 (List.mem_cons_self _ _)

/-- `normalizePatient` succeeds exactly when `resolveId` does, and returns
that id. -/
lemma normalizePatient_map_id (patient : Patient) :
    Option.map Normalized.id (normalizePatient patient) = resolveId patient := by
  cases h : resolveId patient with
  | none => simp [normalizePatient, h]
  | some x => simp [normalizePatient, h]

/-- Every record kept by `normFirst` resolves its id from some fetched
record. -/
lemma normFirst_mem_resolved :
    ∀ (l : List Patient) (seen : List String) (n : Normalized),
      n ∈ normFirst l seen → n.id ∈ l.filterMap resolveId := by
  intro l
  induction l with
  | nil => intro seen n h; simp [normFirst] at h
  | cons r rest ih =>
    intro seen n h
    cases hn : normalizePatient r with
    | none =>
      simp only [normFirst, hn] at h
      rcases List.mem_filterMap.mp (ih seen n h) with ⟨p, hp, hres⟩
      exact List.mem_filterMap.mpr ⟨p, List.mem_cons_of_mem _ hp, hres⟩
    | some m =>
      have hres : resolveId r = some m.id := by
        rw [← normalizePatient_map_id, hn]
        rfl
      simp only [normFirst, hn] at h
      by_cases hs : m.id ∈ seen
      · rw [if_pos hs] at h
        rcases List.mem_filterMap.mp (ih seen n h) with ⟨p, hp, hres2⟩
        exact List.mem_filterMap.mpr ⟨p, List.mem_cons_of_mem _ hp, hres2⟩
      · rw [if_neg hs] at h
        rcases List.mem_cons.mp h with h1 | h1
        · exact List.mem_filterMap.mpr ⟨r, List.mem_cons_self _ _, by rw [h1]; exact hres⟩
        · rcases List.mem_filterMap.mp (ih (m.id :: seen) n h1) with ⟨p, hp, hres2⟩
          exact List.mem_filterMap.mpr ⟨p, List.mem_cons_of_mem _ hp, hres2⟩

/-- The ids kept by `normFirst` are the first occurrences of the resolved
ids of the records. -/
lemma normFirst_map_id_eq_firstIds :
    ∀ (l : List Patient) (seen : List String),
      (normFirst l seen).map Normalized.id = firstIds (l.filterMap resolveId) seen := by
  intro l
  induction l with
  | nil => intro seen; simp [normFirst, firstIds]
  | cons r rest ih =>
    intro seen
    cases hn : normalizePatient r with
    | none =>
      have hres : resolveId r = none := by
        rw [← normalizePatient_map_id, hn]
        rfl
      simp only [normFirst, hn, List.filterMap_cons, hres]
      exact ih seen
    | some m =>
      have hres : resolveId r = some m.id := by
        rw [← normalizePatient_map_id, hn]
        rfl
      simp only [normFirst, hn, List.filterMap_cons, hres, firstIds]
      by_cases hs : m.id ∈ seen
      · rw [if_pos hs, if_pos hs]
        exact ih seen
      · rw [if_neg hs, if_neg hs, List.map_cons]
        rw [ih (m.id :: seen)]

/-- Counting first occurrences outside `seen` is counting the distinct
elements not in `seen`. -/
lemma firstIds_length :
    ∀ (xs : List String) (seen : List String),
      (firstIds xs seen).length = (xs.filter (fun x => decide (x ∉ seen))).toFinset.card := by
  intro xs
  induction xs with
  | nil => intro seen; simp [firstIds]
  | cons x rest ih =>
    intro seen
    by_cases hs : x ∈ seen
    · simp only [firstIds, if_pos hs, List.filter_cons]
      rw [if_neg (by simp [hs])]
      exact ih seen
    · simp only [firstIds, if_neg hs, List.filter_cons]
      rw [if_pos (by simp [hs])]
      rw [List.length_cons, ih (x :: seen)]
      have hsplit : rest.filter (fun y => decide (y ∉ x :: seen))
          = (rest.filter (fun y => decide (y ∉ seen))).filter (fun y => decide (y ≠ x)) := by
        rw [List.filter_filter]
        apply List.filter_congr
        intro y hy
        simp only [List.mem_cons, decide_not]
        by_cases h1 : y = x <;> by_cases h2 : y ∈ seen <;> simp [h1, h2]
      rw [hsplit]
      rw [List.toFinset_cons]
      have herase : ((rest.filter (fun y => decide (y ∉ seen))).filter
            (fun y => decide (y ≠ x))).toFinset
          = (rest.filter (fun y => decide (y ∉ seen))).toFinset.erase x := by
        ext y
        simp only [List.mem_toFinset, List.mem_filter, Finset.mem_erase, decide_eq_true_eq]
        tauto
      rw [herase]
      set A := (rest.filter (fun y => decide (y ∉ seen))).toFinset with hA
      by_cases hxA : x ∈ A
      · rw [Finset.insert_eq_self.mpr hxA]
        rw [Finset.card_erase_of_mem hxA]
        have : 1 ≤ A.card := Finset.card_pos.mpr ⟨x, hxA⟩
        omega
      · rw [Finset.erase_eq_of_not_mem hxA]
        rw [Finset.card_insert_of_not_mem hxA]

/-- A record whose resolved id was already contributed (earlier in the
list or in `seen`) changes nothing: `normFirst` skips it. -/
lemma normFirst_skip_dup :
    ∀ (l₁ : List Patient) (r : Patient) (l₂ : List Patient) (seen : List String) (x : String),
      resolveId r = some x → (x ∈ l₁.filterMap resolveId ∨ x ∈ seen) →
      normFirst (l₁ ++ r :: l₂) seen = normFirst (l₁ ++ l₂) seen := by
  intro l₁
  induction l₁ with
  | nil =>
    intro r l₂ seen x hres hmem
    rcases hmem with h | h
    · simp at h
    · have hn : ∃ n, normalizePatient r = some n ∧ n.id = x := by
        have hmap := normalizePatient_map_id r
        rw [hres] at hmap
        cases hnp : normalizePatient r with
        | none => rw [hnp] at hmap; simp at hmap
        | some n =>
          rw [hnp] at hmap
          exact ⟨n, rfl, Option.some.inj hmap⟩
      rcases hn with ⟨n, hnp, hid⟩
      simp only [List.nil_append, normFirst, hnp]
      rw [if_pos (hid ▸ h)]
  | cons p l₁ ih =>
    intro r l₂ seen x hres hmem
    simp only [List.cons_append]
    cases hnp : normalizePatient p with
    | none =>
      have hresp : resolveId p = none := by
        rw [← normalizePatient_map_id, hnp]
        rfl
      simp only [normFirst, hnp]
      apply ih r l₂ seen x hres
      rcases hmem with h | h
      · rw [List.filterMap_cons, hresp] at h
        exact Or.inl h
      · exact Or.inr h
    | some m =>
      have hresp : resolveId p = some m.id := by
        rw [← normalizePatient_map_id, hnp]
        rfl
      simp only [normFirst, hnp]
      by_cases hs : m.id ∈ seen
      · simp only [if_pos hs]
        apply ih r l₂ seen x hres
        rcases hmem with h | h
        · rw [List.filterMap_cons, hresp] at h
          rcases List.mem_cons.mp h with h1 | h1
          · exact Or.inr (h1 ▸ hs)
          · exact Or.inl h1
        · exact Or.inr h
      · simp only [if_neg hs]
        congr 1
        apply ih r l₂ (m.id :: seen) x hres
        rcases hmem with h | h
        · rw [List.filterMap_cons, hresp] at h
          rcases List.mem_cons.mp h with h1 | h1
          · exact Or.inr (h1 ▸ List.mem_cons_self _ _)
          · exact Or.inl h1
        · exact Or.inr (List.mem_cons_of_mem _ h)

/-- Claim C5: the classifier deduplicates by id, first occurrence winning:
a later record whose id already occurred contributes nothing; each alert
list is duplicate-free; every alerted id resolves from some fetched
record; and `totalPatientsSeen` is the number of distinct successfully
resolved ids (id-less records dropped and not counted). -/
theorem claim_C5_dedup_invariants :
    (∀ (l₁ l₂ : List Patient) (r : Patient) (x : String),
       resolveId r = some x → x ∈ l₁.filterMap resolveId →
       fetchPatientsClassify (l₁ ++ r :: l₂) = fetchPatientsClassify (l₁ ++ l₂))
  ∧ (∀ l : List Patient, (fetchPatientsClassify l).highRisk.Nodup
      ∧ (fetchPatientsClassify l).fever.Nodup ∧ (fetchPatientsClassify l).dataQuality.Nodup)
  ∧ (∀ (l : List Patient) (x : String),
       x ∈ (fetchPatientsClassify l).highRisk ∨ x ∈ (fetchPatientsClassify l).fever
         ∨ x ∈ (fetchPatientsClassify l).dataQuality →
       x ∈ l.filterMap resolveId)
  ∧ (∀ l : List Patient,
       (fetchPatientsClassify l).totalPatients = (l.filterMap resolveId).toFinset.card) := by
  have hmaster : ∀ l : List Patient, fetchPatientsClassify l =
      ⟨((normFirst l []).filter (fun n => decide (4 ≤ n.total))).map Normalized.id,
       ((normFirst l []).filter (fun n => feverFlag n.temperature)).map Normalized.id,
       ((normFirst l []).filter (fun n => n.hasInvalid)).map Normalized.id,
       (normFirst l []).length⟩ := by
    intro l
    simp only [fetchPatientsClassify, foldl_processRecord, initState]
    simp [List.length_reverse, List.length_map]
  refine ⟨?_, ?_, ?_, ?_⟩
  · intro l₁ l₂ r x hres hmem
    rw [hmaster, hmaster, normFirst_skip_dup l₁ r l₂ [] x hres (Or.inl hmem)]
  · intro l
    rw [hmaster]
    refine ⟨?_, ?_, ?_⟩ <;>
      exact List.Nodup.sublist (List.Sublist.map _ (List.filter_sublist _))
        (normFirst_ids_nodup l [])
  · intro l x hx
    rw [hmaster] at hx
    have hx2 : ∃ n, n ∈ normFirst l [] ∧ n.id = x := by
      rcases hx with h | h | h <;>
      · rcases List.mem_map.mp h with ⟨n, hn, hid⟩
        exact ⟨n, (List.mem_filter.mp hn).1, hid⟩
    rcases hx2 with ⟨n, hn, hid⟩
    exact hid ▸ normFirst_mem_resolved l [] n hn
  · intro l
    rw [hmaster]
    have hfil : (l.filterMap resolveId).filter (fun x => decide (x ∉ ([] : List String)))
        = l.filterMap resolveId := by
      rw [List.filter_eq_self]
      intro a ha
      simp
    have hlen2 : (normFirst l []).length = (l.filterMap resolveId).toFinset.card := by
      rw [show (normFirst l []).length = ((normFirst l []).map Normalized.id).length from
        (List.length_map _ _).symm]
      rw [normFirst_map_id_eq_firstIds, firstIds_length, hfil]
    exact hlen2

/-- Witness for C5: two records with id `a` (the second with unparseable
fields) and one with id `b` — the duplicate contributes nothing. -/
theorem claim_C5_dedup_invariants_witness :
    fetchPatientsClassify [dupA1, dupA2, recB] = fetchPatientsClassify [dupA1, recB] :=
  claim_C5_dedup_invariants.1 [dupA1] [recB] dupA2 "a" rfl (by decide)

/-- Closed form of the classification: each alert list collects the ids of
the first-occurrence normalized records passing its test, and
`totalPatients` counts the first occurrences. -/
lemma fetchPatientsClassify_eq (l : List Patient) :
    fetchPatientsClassify l =
      ⟨((normFirst l []).filter (fun n => decide (4 ≤ n.total))).map Normalized.id,
       ((normFirst l []).filter (fun n => feverFlag n.temperature)).map Normalized.id,
       ((normFirst l []).filter (fun n => n.hasInvalid)).map Normalized.id,
       (normFirst l []).length⟩ := by
  simp only [fetchPatientsClassify, foldl_processRecord, initState]
  simp [List.length_reverse, List.length_map]

/-- The fever test passes exactly on a parsed temperature of at least
99.6. -/
lemma feverFlag_iff (t : Option ℚ) :
    feverFlag t = true ↔ ∃ q, t = some q ∧ (99.6 : ℚ) ≤ q := by
  cases t <;> simp [feverFlag]

/-- A normalized record keeps the parsed temperature verbatim. -/
lemma normalizePatient_temperature (patient : Patient) (n : Normalized)
    (h : normalizePatient patient = some n) :
    n.temperature = parseTemperatureValue patient.temperature := by
  cases hres : resolveId patient with
  | none => simp [normalizePatient, hres] at h
  | some i =>
    simp only [normalizePatient, hres, Option.some.injEq] at h
    rw [← h]

/-- The `hasInvalid` flag of a normalized record holds exactly when blood
pressure, temperature or age failed to parse. -/
lemma normalizePatient_hasInvalid (patient : Patient) (n : Normalized)
    (h : normalizePatient patient = some n) :
    (n.hasInvalid = true ↔
      ((parseBloodPressureReading patient.blood_pressure).valid = false
        ∨ parseTemperatureValue patient.temperature = none
        ∨ parseAgeValue patient.age = none)) := by
  cases hres : resolveId patient with
  | none => simp [normalizePatient, hres] at h
  | some i =>
    simp only [normalizePatient, hres, Option.some.injEq] at h
    rw [← h]
    simp only [Bool.or_eq_true, decide_eq_true_eq, Bool.not_eq_true']
    tauto

/-- Claim C6: an id is in the fever set exactly when its (first-occurrence)
record's parsed raw temperature exists and is at least 99.6 — the raw
value, not the temperature score; the normalized record carries the parsed
temperature verbatim, and the concrete patient with temperature 100.0
(temperature score 1) lands in the fever set. -/
theorem claim_C6_fever_raw_value :
    (∀ (l : List Patient) (x : String),
       x ∈ (fetchPatientsClassify l).fever ↔
         ∃ n, n ∈ normFirst l [] ∧ n.id = x
           ∧ ∃ q, n.temperature = some q ∧ (99.6 : ℚ) ≤ q)
  ∧ (∀ (patient : Patient) (n : Normalized), normalizePatient patient = some n →
       n.temperature = parseTemperatureValue patient.temperature)
  ∧ normalizePatient feverPatient = some ⟨"t1", 1, 1, 1, 3, some 100.0, false⟩
  ∧ fetchPatientsClassify [feverPatient] = ⟨[], ["t1"], [], 1⟩ := by
  have hnorm : normalizePatient feverPatient = some ⟨"t1", 1, 1, 1, 3, some 100.0, false⟩ := by
    have hid : resolveId feverPatient = some "t1" := by decide
    simp only [normalizePatient, hid]
    norm_num [feverPatient, parseBloodPressureReading, parseTemperatureValue, parseAgeValue,
      BPHalf.truthy, BPHalf.parseNum, getBloodPressureScore, getTemperatureScore, getAgeScore,
      HIGH_FEVER_THRESHOLD]
    exact ⟨Option.some_ne_none _, Option.some_ne_none _⟩
  refine ⟨?_, normalizePatient_temperature, hnorm, ?_⟩
  · intro l x
    have hm : (fetchPatientsClassify l).fever
        = ((normFirst l []).filter (fun n => feverFlag n.temperature)).map Normalized.id := by
      rw [fetchPatientsClassify_eq]
    rw [hm]
    constructor
    · intro hx
      rcases List.mem_map.mp hx with ⟨n, hn, hid⟩
      rcases (feverFlag_iff _).mp (List.mem_filter.mp hn).2 with ⟨q, hq, hle⟩
      exact ⟨n, (List.mem_filter.mp hn).1, hid, q, hq, hle⟩
    · rintro ⟨n, hn, hid, q, hq, hle⟩
      exact List.mem_map.mpr
        ⟨n, List.mem_filter.mpr ⟨hn, (feverFlag_iff _).mpr ⟨q, hq, hle⟩⟩, hid⟩
  · rw [fetchPatientsClassify_eq]
    rw [show normFirst [feverPatient] [] = [⟨"t1", 1, 1, 1, 3, some 100.0, false⟩] from by
      simp [normFirst, hnorm]]
    norm_num [feverFlag]

/-- Witness for C6: the fever membership and the temperature-preservation
hypothesis instantiated on the concrete 100.0-degree patient. -/
theorem claim_C6_fever_raw_value_witness :
    "t1" ∈ (fetchPatientsClassify [feverPatient]).fever
  ∧ (⟨"t1", 1, 1, 1, 3, some 100.0, false⟩ : Normalized).temperature
      = parseTemperatureValue feverPatient.temperature := by
  constructor
  · refine (claim_C6_fever_raw_value.1 [feverPatient] "t1").mpr ?_
    refine ⟨⟨"t1", 1, 1, 1, 3, some 100.0, false⟩, ?_, rfl, 100.0, rfl, by norm_num⟩
    simp [normFirst, claim_C6_fever_raw_value.2.2.1]
  · exact claim_C6_fever_raw_value.2.1 feverPatient _ claim_C6_fever_raw_value.2.2.1

/-- Claim C7: an id is in the data-quality set exactly when its
(first-occurrence) record's `hasInvalid` flag holds, and that flag holds
exactly when blood pressure, temperature or age failed to parse; the
concrete `"bad/data"` record (both halves non-numeric) is flagged despite
its valid temperature and age. -/
theorem claim_C7_data_quality :
    (∀ (l : List Patient) (x : String),
       x ∈ (fetchPatientsClassify l).dataQuality ↔
         ∃ n, n ∈ normFirst l [] ∧ n.id = x ∧ n.hasInvalid = true)
  ∧ (∀ (patient : Patient) (n : Normalized), normalizePatient patient = some n →
       (n.hasInvalid = true ↔
         ((parseBloodPressureReading patient.blood_pressure).valid = false
           ∨ parseTemperatureValue patient.temperature = none
           ∨ parseAgeValue patient.age = none)))
  ∧ normalizePatient badBpPatient = some ⟨"q1", 0, 0, 1, 1, some 98.6, true⟩
  ∧ parseBloodPressureReading badBpPatient.blood_pressure = ⟨none, none, false⟩
  ∧ parseTemperatureValue badBpPatient.temperature = some 98.6
  ∧ parseAgeValue badBpPatient.age = some 30
  ∧ fetchPatientsClassify [badBpPatient] = ⟨[], [], ["q1"], 1⟩ := by
  have hnorm : normalizePatient badBpPatient = some ⟨"q1", 0, 0, 1, 1, some 98.6, true⟩ := by
    have hid : resolveId badBpPatient = some "q1" := by decide
    simp only [normalizePatient, hid]
    norm_num [badBpPatient, parseBloodPressureReading, parseTemperatureValue, parseAgeValue,
      BPHalf.truthy, BPHalf.parseNum, getBloodPressureScore, getTemperatureScore, getAgeScore,
      HIGH_FEVER_THRESHOLD]
  refine ⟨?_, normalizePatient_hasInvalid, hnorm, by norm_num [badBpPatient,
    parseBloodPressureReading, BPHalf.truthy, BPHalf.parseNum], rfl, by norm_num [badBpPatient,
    parseAgeValue], ?_⟩
  · intro l x
    have hm : (fetchPatientsClassify l).dataQuality
        = ((normFirst l []).filter (fun n => n.hasInvalid)).map Normalized.id := by
      rw [fetchPatientsClassify_eq]
    rw [hm]
    constructor
    · intro hx
      rcases List.mem_map.mp hx with ⟨n, hn, hid⟩
      exact ⟨n, (List.mem_filter.mp hn).1, hid, (List.mem_filter.mp hn).2⟩
    · rintro ⟨n, hn, hid, hinv⟩
      exact List.mem_map.mpr ⟨n, List.mem_filter.mpr ⟨hn, hinv⟩, hid⟩
  · rw [fetchPatientsClassify_eq]
    rw [show normFirst [badBpPatient] [] = [⟨"q1", 0, 0, 1, 1, some 98.6, true⟩] from by
      simp [normFirst, hnorm]]
    norm_num [feverFlag]

/-- Witness for C7: the data-quality membership and the parse-failure
characterisation instantiated on the concrete `"bad/data"` patient. -/
theorem claim_C7_data_quality_witness :
    "q1" ∈ (fetchPatientsClassify [badBpPatient]).dataQuality
  ∧ ((⟨"q1", 0, 0, 1, 1, some 98.6, true⟩ : Normalized).hasInvalid = true ↔
      ((parseBloodPressureReading badBpPatient.blood_pressure).valid = false
        ∨ parseTemperatureValue badBpPatient.temperature = none
        ∨ parseAgeValue badBpPatient.age = none)) := by
  constructor
  · refine (claim_C7_data_quality.1 [badBpPatient] "q1").mpr ?_
    refine ⟨⟨"q1", 0, 0, 1, 1, some 98.6, true⟩, ?_, rfl, rfl⟩
    simp [normFirst, claim_C7_data_quality.2.2.1]
  · exact claim_C7_data_quality.2.1 badBpPatient _ claim_C7_data_quality.2.2.1

theorem fetchPagesGo_zero (server : ℕ → ℕ → Attempt PatientsResponse) (maxPages : ℕ)
    (st : FetchState) : fetchPagesGo server maxPages 0 st = .ok st := rfl

theorem fetchPagesGo_succ (server : ℕ → ℕ → Attempt PatientsResponse) (maxPages fuel : ℕ)
    (st : FetchState) :
    fetchPagesGo server maxPages (fuel + 1) st =
      (if st.hasNext && decide (st.page ≤ maxPages) then
        match fetchWithRetry (server st.page) with
        | (.error e, _, _) => .error e
        | (.ok payload, _, _) => fetchPagesGo server maxPages fuel (applyPage payload maxPages st)
      else .ok st) := rfl

theorem applyPage_page (payload : PatientsResponse) (maxPages : ℕ) (st : FetchState) :
    (applyPage payload maxPages st).page = st.page + 1 := rfl

theorem applyPage_pagesFetched (payload : PatientsResponse) (maxPages : ℕ) (st : FetchState) :
    (applyPage payload maxPages st).pagesFetched = st.pagesFetched + 1 := rfl

theorem applyPage_totalPages (payload : PatientsResponse) (maxPages : ℕ) (st : FetchState) :
    (applyPage payload maxPages st).totalPages =
      (match payload.pagination.bind Pagination.totalPages with
       | some reported => some reported
       | none => st.totalPages) := rfl

/-- A successful `fetchGo` result was produced by the server at the
returned attempt number. -/
lemma fetchGo_ok_source {α : Type} (server : ℕ → Attempt α) :
    ∀ (fuel attempt delayAcc : ℕ) (x : α) (n d : ℕ),
      fetchGo server fuel attempt delayAcc = (.ok x, n, d) → server n = .ok x := by
  intro fuel
  induction fuel with
  | zero =>
    intro attempt delayAcc x n d h
    rw [fetchGo_zero] at h
    simp at h
  | succ fuel ih =>
    intro attempt delayAcc x n d h
    rw [fetchGo_succ] at h
    by_cases hmax : attempt < MAX_ATTEMPTS
    · rw [if_pos hmax] at h
      cases hserver : server (attempt + 1) with
      | ok y =>
        simp only [hserver, Prod.mk.injEq, Except.ok.injEq] at h
        rw [← h.2.1, hserver, h.1]
      | httpFail code body =>
        simp only [hserver] at h
        by_cases hr : (isRetriableStatus code && decide (attempt + 1 < MAX_ATTEMPTS)) = true
        · rw [if_pos hr] at h
          exact ih _ _ x n d h
        · rw [if_neg hr] at h
          by_cases hm2 : MAX_ATTEMPTS ≤ attempt + 1
          · rw [if_pos hm2] at h
            simp at h
          · rw [if_neg hm2] at h
            exact ih _ _ x n d h
      | netErr =>
        simp only [hserver] at h
        by_cases hm2 : MAX_ATTEMPTS ≤ attempt + 1
        · rw [if_pos hm2] at h
          simp at h
        · rw [if_neg hm2] at h
          exact ih _ _ x n d h
    · rw [if_neg hmax] at h
      simp at h

/-- If no successful response ever reports `totalPages`, the paging loop
keeps the running `totalPages` empty. -/
lemma fetchPagesGo_totalPages_none (server : ℕ → ℕ → Attempt PatientsResponse) (maxPages : ℕ)
    (hserver : ∀ p a resp, server p a = .ok resp →
      resp.pagination.bind Pagination.totalPages = none) :
    ∀ (fuel : ℕ) (st st2 : FetchState), st.totalPages = none →
      fetchPagesGo server maxPages fuel st = .ok st2 → st2.totalPages = none := by
  intro fuel
  induction fuel with
  | zero =>
    intro st st2 hnone h
    rw [fetchPagesGo_zero] at h
    cases h
    exact hnone
  | succ fuel ih =>
    intro st st2 hnone h
    rw [fetchPagesGo_succ] at h
    by_cases hguard : (st.hasNext && decide (st.page ≤ maxPages)) = true
    · rw [if_pos hguard] at h
      rcases hfr : fetchWithRetry (server st.page) with ⟨res, n, d⟩
      cases res with
      | error e =>
        simp only [hfr] at h
        cases h
      | ok payload =>
        simp only [hfr] at h
        have hsrc := fetchGo_ok_source (server st.page) MAX_ATTEMPTS 0 0 payload n d hfr
        have hnone2 : (applyPage payload maxPages st).totalPages = none := by
          rw [applyPage_totalPages, hserver st.page n payload hsrc]
          exact hnone
        exact ih _ _ hnone2 h
    · rw [if_neg hguard] at h
      cases h
      exact hnone

/-- Counterexample to claim C2 as literally stated.  The code keeps the
most recently reported `totalPages` and compares the response-reported
page number against it; the claim's wording (this response's `totalPages`,
current counter) gives a different observable run.  On the sticky server
the code fetches 5 pages while the claimed computation stops after 2; on
the page-number-override server the code stops after 1 page while the
claimed computation fetches 2. -/
theorem claim_C2_counterexample :
    fetchAllPatients stickyServer 20 10 = .ok ⟨[blankRecord], 5, 5, 20⟩
  ∧ claimedFetchAllPatients stickyPages 20 10 = ⟨[blankRecord], 2, 5, 20⟩
  ∧ fetchAllPatients overrideServer 20 10 = .ok ⟨[blankRecord], 1, 5, 20⟩
  ∧ claimedFetchAllPatients overridePages 20 10 = ⟨[blankRecord], 2, 5, 20⟩ :=
  ⟨rfl, rfl, rfl, rfl⟩

/-- Claim C2 as amended: after each successful page the next-page flag is
computed with priority (1) the response's explicit `hasNext`; else (2) if
any response so far reported `totalPages`, compare the response-reported
page number (defaulting to the loop counter) with the most recently
reported `totalPages`; else (3) continue only on a non-empty page below
the ceiling.  The loop exits when `hasNext` is false or the counter
exceeds `maxPages`, and the result's `totalPages` defaults to
`pagesFetched` when the remote never reports one. -/
theorem claim_C2_pagination_amended :
    (∀ (payload : PatientsResponse) (maxPages : ℕ) (st : FetchState),
       (applyPage payload maxPages st).hasNext
         = describedHasNext (payload.pagination.bind Pagination.hasNext)
             (payload.pagination.bind Pagination.totalPages)
             (payload.pagination.bind Pagination.page)
             st.totalPages (payload.data.getD []).length st.page maxPages)
  ∧ (∀ (server : ℕ → ℕ → Attempt PatientsResponse) (maxPages fuel : ℕ) (st : FetchState),
       ¬(st.hasNext = true ∧ st.page ≤ maxPages) →
       fetchPagesGo server maxPages fuel st = .ok st)
  ∧ (∀ (server : ℕ → ℕ → Attempt PatientsResponse) (limit maxPages : ℕ),
       (∀ p a resp, server p a = .ok resp →
         resp.pagination.bind Pagination.totalPages = none) →
       (∃ e, fetchAllPatients server limit maxPages = .error e)
         ∨ (∃ r, fetchAllPatients server limit maxPages = .ok r
              ∧ r.totalPages = (r.pagesFetched : ℤ))) := by
  refine ⟨?_, ?_, ?_⟩
  · intro payload maxPages st
    rfl
  · intro server maxPages fuel st hexit
    cases fuel with
    | zero => rw [fetchPagesGo_zero]
    | succ fuel =>
      rw [fetchPagesGo_succ, if_neg ?_]
      intro hguard
      rw [Bool.and_eq_true, decide_eq_true_eq] at hguard
      exact hexit hguard
  · intro server limit maxPages hserver
    rcases hrun : fetchPagesGo server maxPages maxPages initFetchState with e | st2
    · exact Or.inl ⟨e, by rw [fetchAllPatients, hrun]⟩
    · have hnone := fetchPagesGo_totalPages_none server maxPages hserver maxPages
        initFetchState st2 rfl hrun
      refine Or.inr ⟨⟨st2.patients, st2.pagesFetched,
        st2.totalPages.getD (st2.pagesFetched : ℤ), limit⟩, by rw [fetchAllPatients, hrun], ?_⟩
      rw [hnone]
      rfl

/-- Witness for the amended C2: the loop-exit clause on an exhausted state
and the `totalPages` default on a server that never reports pagination. -/
theorem claim_C2_pagination_amended_witness :
    fetchPagesGo stickyServer 10 4 ⟨[], 11, 10, true, some 5⟩ = .ok ⟨[], 11, 10, true, some 5⟩
  ∧ ((∃ e, fetchAllPatients (fun _ _ => .ok ⟨some [], none⟩) 5 10 = .error e)
      ∨ (∃ r, fetchAllPatients (fun _ _ => .ok ⟨some [], none⟩) 5 10 = .ok r
           ∧ r.totalPages = (r.pagesFetched : ℤ))) := by
  constructor
  · exact claim_C2_pagination_amended.2.1 stickyServer 10 4 ⟨[], 11, 10, true, some 5⟩
      (by simp)
  · exact claim_C2_pagination_amended.2.2 (fun _ _ => .ok ⟨some [], none⟩) 5 10
      (by intro p a resp h; cases h; rfl)

/-- With every page reporting `hasNext = true` (and succeeding on its
first attempt), the loop runs page by page until the counter passes
`maxPages`, having fetched exactly `maxPages` pages. -/
lemma fetchPagesGo_always_next (server : ℕ → ℕ → Attempt PatientsResponse) (maxPages : ℕ)
    (hserver : ∀ p, ∃ resp, server p 1 = .ok resp
      ∧ resp.pagination.bind Pagination.hasNext = some true) :
    ∀ (fuel : ℕ) (st : FetchState), st.hasNext = true → st.page = st.pagesFetched + 1 →
      st.page ≤ maxPages + 1 → maxPages + 1 ≤ st.page + fuel →
      ∃ st2, fetchPagesGo server maxPages fuel st = .ok st2 ∧ st2.pagesFetched = maxPages := by
  intro fuel
  induction fuel with
  | zero =>
    intro st h1 h2 h3 h4
    exact ⟨st, fetchPagesGo_zero server maxPages st, by omega⟩
  | succ fuel ih =>
    intro st h1 h2 h3 h4
    by_cases hpage : st.page ≤ maxPages
    · obtain ⟨resp, hok, hflag⟩ := hserver st.page
      have hfr : fetchWithRetry (server st.page) = (.ok resp, 1, 0) :=
        fetchWithRetry_first_ok _ _ hok
      have hnext2 : (applyPage resp maxPages st).hasNext = true := by
        simp [applyPage, hflag]
      obtain ⟨st2, hrun, hcount⟩ := ih (applyPage resp maxPages st) hnext2
        (by rw [applyPage_page, applyPage_pagesFetched]; omega)
        (by rw [applyPage_page]; omega)
        (by rw [applyPage_page]; omega)
      refine ⟨st2, ?_, hcount⟩
      rw [fetchPagesGo_succ, if_pos (by simp [h1, hpage])]
      simp only [hfr]
      exact hrun
    · refine ⟨st, ?_, by omega⟩
      rw [fetchPagesGo_succ, if_neg (by simp [hpage])]

/-- Claim C9: against a server whose every page succeeds and reports
`hasNext = true`, `fetchAllPatients` returns normally (no error) having
fetched exactly `maxPages` pages — the ceiling truncates silently. -/
theorem claim_C9_maxPages_truncation (server : ℕ → ℕ → Attempt PatientsResponse)
    (limit maxPages : ℕ) (hmax : 1 ≤ maxPages)
    (hserver : ∀ p, ∃ resp, server p 1 = .ok resp
      ∧ resp.pagination.bind Pagination.hasNext = some true) :
    ∃ r, fetchAllPatients server limit maxPages = .ok r ∧ r.pagesFetched = maxPages := by
  obtain ⟨st2, hrun, hcount⟩ := fetchPagesGo_always_next server maxPages hserver maxPages
    initFetchState rfl rfl (by show (1 : ℕ) ≤ maxPages + 1; omega)
    (by show maxPages + 1 ≤ 1 + maxPages; omega)
  exact ⟨⟨st2.patients, st2.pagesFetched, st2.totalPages.getD (st2.pagesFetched : ℤ), limit⟩,
    by rw [fetchAllPatients, hrun], hcount⟩

/-- Witness for C9: a concrete always-`hasNext` server stopped after
exactly 3 pages. -/
theorem claim_C9_maxPages_truncation_witness :
    ∃ r, fetchAllPatients (fun _ _ => .ok ⟨some [], some ⟨none, none, some true⟩⟩) 5 3 = .ok r
      ∧ r.pagesFetched = 3 :=
  claim_C9_maxPages_truncation (fun _ _ => .ok ⟨some [], some ⟨none, none, some true⟩⟩) 5 3
    (by omega) (fun p => ⟨⟨some [], some ⟨none, none, some true⟩⟩, rfl, rfl⟩)
